import Mathlib

/-!
Verification of the resilience and numerical-estimation core of the
Wormhole data-provider plugin.

Shallow embedding of:
- `RateLimiter` (src/packages/_plugin_template/src/utils/http.ts): the
  window-accounting core of `process()`, with `Date.now()` made an explicit
  `now : Nat` argument.  Each step models one `process()` invocation with a
  non-empty queue; the returned `Bool` says whether the head caller was
  admitted (its `acquire()` promise resolved).
- `CircuitBreaker` (src/packages/_plugin_template/src/utils/circuit-breaker.ts):
  `execute` with the wrapped operation abstracted to a `Bool` (does it
  succeed), again with explicit time.
- `fetchWithRetry` (src/packages/_plugin_template/src/utils/http.ts): the
  retry loop over an abstract sequence of per-attempt outcomes (transport
  failure or a response with a status and optional Retry-After header).
  Backoff delays only affect timing, not control flow, and are not modelled.
- `DataProviderService` (src/unnamed/part_000): `findMaxAmountForSlippage`,
  `calculateSlippage`, `calculateEffectiveRate`, `calculateFeeUsd`,
  `calculateWormholeQuote`, `getSingleRate`/`getRates` (quote endpoints
  abstracted to `env : Route → Nat → Option Nat`, `none` = all endpoints
  failed), and the `getFromCache`/`setCache` pair (the JS `Map` as an
  association list with unique keys).

Arbitrary-precision integers (`BigInt`) are `Nat`/`Int` with `Int.tdiv`
for BigInt's truncated division; JS `number` arithmetic on normalized
rates/fees is modelled exactly over `ℚ`.
-/

/-! ## RateLimiter (http.ts) -/

namespace RateLimiter

structure State where
  windowStart : Nat
  requestCount : Nat
deriving DecidableEq, Repr

/-- One `process()` invocation at time `now` with a non-empty queue:
reset the window if expired, then admit the head caller iff the counter
is under `maxRequests`.  Returns the new state and whether an admission
happened. -/
def process (maxRequests windowMs : Nat) (s : State) (now : Nat) : State × Bool :=
  let s1 := if now - s.windowStart ≥ windowMs then State.mk now 0 else s
  if s1.requestCount < maxRequests then
    (State.mk s1.windowStart (s1.requestCount + 1), true)
  else
    (s1, false)

structure LogEntry where
  time : Nat
  wsAfter : Nat
  admitted : Bool
deriving DecidableEq, Repr

/-- Run `process` over a list of invocation times, logging for each call
the time, the window start after the call, and whether it admitted. -/
def run (maxRequests windowMs : Nat) (s : State) : List Nat → List LogEntry
  | [] => []
  | t :: ts =>
    let p := process maxRequests windowMs s t
    LogEntry.mk t p.1.windowStart p.2 :: run maxRequests windowMs p.1 ts

/-- Number of admissions in the log whose time falls in `[t, t + len)`. -/
def admitsInInterval (t len : Nat) (log : List LogEntry) : Nat :=
  log.countP fun e => e.admitted && decide (t ≤ e.time ∧ e.time < t + len)

/-- Number of admissions in the log made under the window that started at `a`. -/
def admitsInWindow (a : Nat) (log : List LogEntry) : Nat :=
  log.countP fun e => e.admitted && decide (e.wsAfter = a)

end RateLimiter

/-! ## CircuitBreaker (circuit-breaker.ts) -/

inductive CircuitState where
  | CLOSED
  | OPEN
  | HALF_OPEN
deriving DecidableEq, Repr

namespace CircuitBreaker

structure Config where
  failureThreshold : Nat
  successThreshold : Nat
  timeout : Nat
  resetTimeout : Nat
deriving DecidableEq, Repr

structure State where
  state : CircuitState
  failureCount : Nat
  successCount : Nat
  lastFailureTime : Nat
  lastResetTime : Nat
deriving DecidableEq, Repr

inductive Outcome where
  | ok
  | opFailed
  | circuitOpen
deriving DecidableEq, Repr

/-- "Reset failure count periodically" at the top of `execute`. -/
def periodicReset (cfg : Config) (s : State) (now : Nat) : State :=
  if now - s.lastResetTime > cfg.resetTimeout then
    { s with failureCount := 0, lastResetTime := now }
  else s

/-- The "Check circuit state" phase of `execute`: after the periodic reset,
decide whether the call is admitted, moving OPEN to HALF_OPEN when the
open timeout has elapsed.  Returns the state as of operation start and
whether the wrapped operation is invoked. -/
def checkState (cfg : Config) (s : State) (now : Nat) : State × Bool :=
  let s1 := periodicReset cfg s now
  if s1.state = CircuitState.OPEN then
    if now - s1.lastFailureTime > cfg.timeout then
      ({ s1 with state := CircuitState.HALF_OPEN, successCount := 0 }, true)
    else
      (s1, false)
  else
    (s1, true)

def onSuccess (cfg : Config) (s : State) : State :=
  let s1 := { s with failureCount := 0 }
  if s1.state = CircuitState.HALF_OPEN then
    let s2 := { s1 with successCount := s1.successCount + 1 }
    if s2.successCount ≥ cfg.successThreshold then
      { s2 with state := CircuitState.CLOSED, successCount := 0 }
    else s2
  else s1

def onFailure (cfg : Config) (s : State) (now : Nat) : State :=
  let s1 := { s with failureCount := s.failureCount + 1, lastFailureTime := now }
  if s1.failureCount ≥ cfg.failureThreshold then
    { s1 with state := CircuitState.OPEN }
  else s1

/-- `execute(fn)` at time `now`, with the wrapped operation abstracted to
whether it succeeds. -/
def execute (cfg : Config) (s : State) (now : Nat) (opSucceeds : Bool) : State × Outcome :=
  let p := checkState cfg s now
  if p.2 then
    if opSucceeds then (onSuccess cfg p.1, Outcome.ok)
    else (onFailure cfg p.1 now, Outcome.opFailed)
  else
    (p.1, Outcome.circuitOpen)

/-- Fold `execute` over a list of (time, operation succeeds) events. -/
def run (cfg : Config) (s : State) : List (Nat × Bool) → State
  | [] => s
  | e :: es => run cfg (execute cfg s e.1 e.2).1 es

end CircuitBreaker

/-! ## fetchWithRetry (http.ts) -/

/-- One attempt's outcome: a transport-level failure (fetch threw), or a
response with its status and optional Retry-After header (seconds). -/
inductive FetchOutcome where
  | transportError
  | response (status : Nat) (retryAfter : Option Nat)
deriving DecidableEq, Repr

inductive FetchErr where
  | rateLimited (retryAfterS : Nat)
  | serverError (status : Nat)
  | transportFailure
deriving DecidableEq, Repr

inductive FetchResult where
  | returned (status : Nat) (attempts : Nat)
  | failed (lastError : Option FetchErr) (attempts : Nat)
deriving DecidableEq, Repr

/-- `Response.ok`: status in [200, 300). -/
def responseOk (status : Nat) : Bool :=
  decide (200 ≤ status) && decide (status < 300)

/-- The per-attempt classification in the `try` body of `fetchWithRetry`:
a 429 throws a rate-limit error (Retry-After defaulting to 60), a non-ok
status ≥ 500 throws a server error, any other response is returned. -/
def classifyAttempt : FetchOutcome → Option FetchErr
  | FetchOutcome.transportError => some FetchErr.transportFailure
  | FetchOutcome.response status retryAfter =>
    if status = 429 then some (FetchErr.rateLimited (retryAfter.getD 60))
    else if !responseOk status && decide (500 ≤ status) then
      some (FetchErr.serverError status)
    else none

def statusOf : FetchOutcome → Nat
  | FetchOutcome.transportError => 0
  | FetchOutcome.response status _ => status

/-- The retry loop of `fetchWithRetry`: `attempt` is the index of the next
attempt, the last argument the number of attempts still allowed.  The
`attempts` field of the result counts attempts actually performed. -/
def fetchLoop (outcomes : Nat → FetchOutcome) (lastError : Option FetchErr)
    (attempt : Nat) : Nat → FetchResult
  | 0 => FetchResult.failed lastError attempt
  | remaining + 1 =>
    match classifyAttempt (outcomes attempt) with
    | none => FetchResult.returned (statusOf (outcomes attempt)) (attempt + 1)
    | some e => fetchLoop outcomes (some e) (attempt + 1) remaining

/-- `fetchWithRetry(url, options, retryConfig)` over an abstract sequence of
per-attempt outcomes: up to `maxRetries + 1` attempts. -/
def fetchWithRetry (outcomes : Nat → FetchOutcome) (maxRetries : Nat) : FetchResult :=
  fetchLoop outcomes none 0 (maxRetries + 1)

def attemptsOf : FetchResult → Nat
  | FetchResult.returned _ a => a
  | FetchResult.failed _ a => a

/-! ## DataProviderService numeric core (src/unnamed/part_000) -/

namespace DataProviderService

/-- `calculateSlippage`: expected output is the decimal-adjusted 1:1 amount;
slippage in basis points, truncated BigInt division, absolute value. -/
def calculateSlippage (srcDecimals destDecimals : Nat) (amountIn amountOut : Nat) : Nat :=
  let expectedOut := amountIn * 10 ^ destDecimals / 10 ^ srcDecimals
  if expectedOut = 0 then 0
  else (Int.tdiv (((expectedOut : Int) - (amountOut : Int)) * 10000) (expectedOut : Int)).natAbs

/-- One probe of the binary search: quote `mid` (a failed probe is
infeasible) and test realized slippage against the budget. -/
def slippageFeasible (quote : Nat → Option Nat) (srcDecimals destDecimals slippageBps : Nat)
    (mid : Nat) : Bool :=
  match quote mid with
  | none => false
  | some out => decide (calculateSlippage srcDecimals destDecimals mid out ≤ slippageBps)

/-- The loop of `findMaxAmountForSlippage`: first argument of the recursion
is the number of iterations left (25 at the top), then `low`, then `high`. -/
def findMaxLoop (feasible : Nat → Bool) : Nat → Nat → Nat → Nat
  | 0, low, _ => low
  | n + 1, low, high =>
    let mid := (low + high) / 2
    if mid = low ∨ mid = high then low
    else if feasible mid then findMaxLoop feasible n mid high
    else findMaxLoop feasible n low mid

/-- `BigInt("10000000000000000000")`, the search's upper bound (10^19). -/
def UPPER_BOUND : Nat := 10000000000000000000

def findMaxAmountForSlippage (quote : Nat → Option Nat)
    (srcDecimals destDecimals slippageBps : Nat) : Nat :=
  findMaxLoop (slippageFeasible quote srcDecimals destDecimals slippageBps) 25 0 UPPER_BOUND

/-- A quote function returning the ideal decimal-adjusted 1:1 output for
every probed amount (zero slippage everywhere). -/
def idealQuote (srcDecimals destDecimals : Nat) (amount : Nat) : Option Nat :=
  some (amount * 10 ^ destDecimals / 10 ^ srcDecimals)

structure Asset where
  assetId : String
  decimals : Nat
deriving DecidableEq, Repr

structure Route where
  source : Asset
  destination : Asset
deriving DecidableEq, Repr

/-- `calculateEffectiveRate`: normalized output per normalized input,
0 when `amountIn` is 0. -/
def calculateEffectiveRate (amountIn amountOut : Nat) (decimalsIn decimalsOut : Nat) : ℚ :=
  if amountIn = 0 then 0
  else
    let normalizedIn : ℚ := (amountIn : ℚ) / 10 ^ decimalsIn
    let normalizedOut : ℚ := (amountOut : ℚ) / 10 ^ decimalsOut
    normalizedOut / normalizedIn

/-- The formula of spec §4.6, written as the spec states it, for comparison
with `calculateEffectiveRate`. -/
def specEffectiveRate (amountIn amountOut : Nat) (decimalsIn decimalsOut : Nat) : ℚ :=
  ((amountOut : ℚ) / 10 ^ decimalsOut) / ((amountIn : ℚ) / 10 ^ decimalsIn)

/-- `calculateFeeUsd`: 25 bps of the normalized amount at an assumed 1 USD
unit price. -/
def calculateFeeUsd (amount : Nat) (decimals : Nat) : ℚ :=
  let feeBps : ℚ := 25
  let amountNum : ℚ := (amount : ℚ) / 10 ^ decimals
  let usdValue : ℚ := amountNum * 1
  usdValue * (feeBps / 10000)

/-- `calculateWormholeQuote`'s amountOut: `amount * (10000 - 25) / 10000`
in BigInt (floor division on non-negative values). -/
def calculateWormholeQuote (notional : Nat) : Nat :=
  notional * (10000 - 25) / 10000

structure RateResult where
  route : Route
  amountIn : Nat
  amountOut : Nat
  effectiveRate : ℚ
  totalFeesUsd : ℚ
deriving DecidableEq

/-- `getSingleRate` with the quote-endpoint cascade abstracted to
`env : Route → Nat → Option Nat` (`none` = every endpoint failed):
on `none` the quote falls back to `calculateWormholeQuote`; no exception
escapes. -/
def getSingleRate (env : Route → Nat → Option Nat) (route : Route) (notional : Nat) :
    RateResult :=
  let amountOut :=
    match env route notional with
    | some out => out
    | none => calculateWormholeQuote notional
  RateResult.mk route notional amountOut
    (calculateEffectiveRate notional amountOut route.source.decimals route.destination.decimals)
    (calculateFeeUsd notional route.source.decimals)

/-- `createFallbackRate`: the rate built purely from the fee model. -/
def createFallbackRate (route : Route) (notional : Nat) : RateResult :=
  let amountOut := calculateWormholeQuote notional
  RateResult.mk route notional amountOut
    (calculateEffectiveRate notional amountOut route.source.decimals route.destination.decimals)
    (calculateFeeUsd notional route.source.decimals)

/-- `getRates`: one entry per route × notional, in order.  In the source the
per-item `try/catch` falls back to `createFallbackRate`; in this embedding
`getSingleRate` is already total (its own endpoint-failure fallback), so the
batch is a plain product. -/
def getRates (env : Route → Nat → Option Nat) (routes : List Route) (notionals : List Nat) :
    List RateResult :=
  routes.flatMap fun route => notionals.map (getSingleRate env route)

/-! ### TTL cache (getFromCache / setCache) -/

structure CacheEntry (V : Type) where
  data : V
  expires : Nat
deriving DecidableEq, Repr

/-- `CACHE_TTL = 60000` (one minute). -/
def CACHE_TTL : Nat := 60000

def cacheFind {V : Type} : List (String × CacheEntry V) → String → Option (CacheEntry V)
  | [], _ => none
  | (k, e) :: rest, key => if k = key then some e else cacheFind rest key

def cacheErase {V : Type} : List (String × CacheEntry V) → String → List (String × CacheEntry V)
  | [], _ => []
  | (k, e) :: rest, key =>
    if k = key then cacheErase rest key else (k, e) :: cacheErase rest key

/-- `getFromCache`: hit iff the entry exists and `expires > now`; an expired
entry is deleted (lazy eviction).  Returns the result and the cache after. -/
def getFromCache {V : Type} (c : List (String × CacheEntry V)) (key : String) (now : Nat) :
    Option V × List (String × CacheEntry V) :=
  match cacheFind c key with
  | some cached =>
    if cached.expires > now then (some cached.data, c)
    else (none, cacheErase c key)
  | none => (none, c)

/-- `setCache`: store with `expires = now + CACHE_TTL` (Map.set replaces). -/
def setCache {V : Type} (c : List (String × CacheEntry V)) (key : String) (data : V)
    (now : Nat) : List (String × CacheEntry V) :=
  (key, CacheEntry.mk data (now + CACHE_TTL)) :: cacheErase c key

end DataProviderService

/-! ## Theorems -/

namespace DataProviderService

theorem cacheFind_cacheErase_self {V : Type} (c : List (String × CacheEntry V)) (k : String) :
    cacheFind (cacheErase c k) k = none := by
  induction c with
  | nil => rfl
  | cons p rest ih =>
    obtain ⟨k1, e⟩ := p
    by_cases h : k1 = k
    · simpa [cacheErase, h] using ih
    · simp [cacheErase, cacheFind, h, ih]

theorem getSingleRate_of_env_none (env : Route → Nat → Option Nat) (route : Route)
    (notional : Nat) (h : env route notional = none) :
    getSingleRate env route notional = createFallbackRate route notional := by
  simp [getSingleRate, createFallbackRate, h]

theorem getRates_split (env : Route → Nat → Option Nat) (routes : List Route)
    (notionals : List Nat) (r0 : Route) (h : ∀ n, env r0 n = none) :
    getRates env routes notionals =
      routes.flatMap fun r => notionals.map fun n =>
        if r = r0 then createFallbackRate r n else getSingleRate env r n := by
  induction routes with
  | nil => rfl
  | cons r rest ih =>
    simp only [getRates, List.flatMap_cons] at ih ⊢
    rw [ih]
    by_cases hr : r = r0
    · subst hr
      congr 1
      exact List.map_congr_left fun n _ => by
        simp [getSingleRate_of_env_none env r n (h n)]
    · congr 1
      exact List.map_congr_left fun n _ => by simp [hr]

theorem getRates_length (env : Route → Nat → Option Nat) (routes : List Route)
    (notionals : List Nat) :
    (getRates env routes notionals).length = routes.length * notionals.length := by
  induction routes with
  | nil => simp [getRates]
  | cons r rest ih =>
    simp only [getRates, List.flatMap_cons, List.length_append, List.length_map,
      List.length_cons] at ih ⊢
    rw [ih]
    ring

end DataProviderService

/-- C10: `calculateEffectiveRate` equals the spec formula
`(amountOut / 10^decimalsOut) / (amountIn / 10^decimalsIn)` whenever
`amountIn ≠ 0`, equals 0 when `amountIn = 0`, and on
`(10^18, 2·10^6, 18, 6)` it is exactly 2. -/
theorem C10_effectiveRate_formula :
    (∀ aIn aOut dIn dOut : Nat, aIn ≠ 0 →
      DataProviderService.calculateEffectiveRate aIn aOut dIn dOut =
        DataProviderService.specEffectiveRate aIn aOut dIn dOut) ∧
    (∀ aOut dIn dOut : Nat,
      DataProviderService.calculateEffectiveRate 0 aOut dIn dOut = 0) ∧
    DataProviderService.calculateEffectiveRate (10 ^ 18) (2 * 10 ^ 6) 18 6 = 2 := by
  refine ⟨?_, ?_, ?_⟩
  · intro aIn aOut dIn dOut h
    simp [DataProviderService.calculateEffectiveRate, DataProviderService.specEffectiveRate, h]
  · intro aOut dIn dOut
    simp [DataProviderService.calculateEffectiveRate]
  · norm_num [DataProviderService.calculateEffectiveRate]

/-- Witness for C10 at `amountIn = 5, amountOut = 10, decimals 1 and 2`. -/
theorem C10_effectiveRate_formula_witness :
    DataProviderService.calculateEffectiveRate 5 10 1 2 =
      DataProviderService.specEffectiveRate 5 10 1 2 :=
  C10_effectiveRate_formula.1 5 10 1 2 (by decide)

/-- C9: `set(k, v)` then `get(k)` before the TTL has elapsed returns `v`;
a `get(k)` at `now ≥ expiresAt` misses and removes the entry; `set` stores
with `expiresAt = now + ttl`; the TTL is fixed at one minute (60000 ms). -/
theorem C9_cache_contract (V : Type) (c : List (String × DataProviderService.CacheEntry V))
    (k : String) (v : V) (now now' : Nat) :
    (now' < now + DataProviderService.CACHE_TTL →
      (DataProviderService.getFromCache (DataProviderService.setCache c k v now) k now').1 =
        some v) ∧
    (∀ e, DataProviderService.cacheFind c k = some e → e.expires ≤ now' →
      DataProviderService.getFromCache c k now' = (none, DataProviderService.cacheErase c k) ∧
      DataProviderService.cacheFind (DataProviderService.getFromCache c k now').2 k = none) ∧
    DataProviderService.cacheFind (DataProviderService.setCache c k v now) k =
      some (DataProviderService.CacheEntry.mk v (now + DataProviderService.CACHE_TTL)) ∧
    DataProviderService.CACHE_TTL = 60000 := by
  refine ⟨?_, ?_, ?_, rfl⟩
  · intro h
    simp [DataProviderService.getFromCache, DataProviderService.setCache,
      DataProviderService.cacheFind, h]
  · intro e he hexp
    have hmiss : DataProviderService.getFromCache c k now' =
        (none, DataProviderService.cacheErase c k) := by
      simp [DataProviderService.getFromCache, he, Nat.not_lt.mpr hexp]
    refine ⟨hmiss, ?_⟩
    rw [hmiss]
    exact DataProviderService.cacheFind_cacheErase_self c k
  · simp [DataProviderService.setCache, DataProviderService.cacheFind]

/-- Witness for C9: fresh set then immediate get on an empty `Nat` cache. -/
theorem C9_cache_contract_witness :
    (DataProviderService.getFromCache
      (DataProviderService.setCache ([] : List (String × DataProviderService.CacheEntry Nat))
        "listedAssets" 7 1000) "listedAssets" 1001).1 = some 7 :=
  (C9_cache_contract Nat [] "listedAssets" 7 1000 1001).1 (by decide)

/-- C7: when every quote endpoint fails for a distinguished route `r0`
(`env r0 n = none` for all notionals), `getRates` substitutes, for each of
`r0`'s entries, the deterministic fallback rate — `amountOut =
⌊notional · 9975 / 10000⌋`, hence 997500 for notional 1000000, and
`totalFeesUsd` from the 25 bps fee model — while every other route's
entries are the live `getSingleRate` values; no entry is lost
(length = routes × notionals, nothing aborts). -/
theorem C7_getRates_fallback (routes : List DataProviderService.Route)
    (notionals : List Nat) (env : DataProviderService.Route → Nat → Option Nat)
    (r0 : DataProviderService.Route) (h : ∀ n, env r0 n = none) :
    (DataProviderService.getRates env routes notionals =
      routes.flatMap fun r => notionals.map fun n =>
        if r = r0 then DataProviderService.createFallbackRate r n
        else DataProviderService.getSingleRate env r n) ∧
    (∀ r n, (DataProviderService.createFallbackRate r n).amountOut = n * 9975 / 10000) ∧
    (∀ r, (DataProviderService.createFallbackRate r 1000000).amountOut = 997500) ∧
    (∀ r n, (DataProviderService.createFallbackRate r n).totalFeesUsd =
      DataProviderService.calculateFeeUsd n r.source.decimals) ∧
    (DataProviderService.getRates env routes notionals).length =
      routes.length * notionals.length := by
  refine ⟨DataProviderService.getRates_split env routes notionals r0 h, ?_, ?_, ?_,
    DataProviderService.getRates_length env routes notionals⟩
  · intro r n
    rfl
  · intro r
    rfl
  · intro r n
    rfl

/-- Witness for C7: one failing route, one live route, notional 1000000. -/
theorem C7_getRates_fallback_witness :
    (DataProviderService.getRates (fun _ _ => none)
      [DataProviderService.Route.mk (DataProviderService.Asset.mk "usdc-eth" 6)
        (DataProviderService.Asset.mk "usdc-pol" 6)] [1000000]).length = 1 * 1 :=
  (C7_getRates_fallback
    [DataProviderService.Route.mk (DataProviderService.Asset.mk "usdc-eth" 6)
      (DataProviderService.Asset.mk "usdc-pol" 6)] [1000000] (fun _ _ => none)
    (DataProviderService.Route.mk (DataProviderService.Asset.mk "usdc-eth" 6)
      (DataProviderService.Asset.mk "usdc-pol" 6)) (fun _ => rfl)).2.2.2.2

theorem fetchLoop_zero (o : Nat → FetchOutcome) (e : Option FetchErr) (a : Nat) :
    fetchLoop o e a 0 = FetchResult.failed e a := rfl

theorem fetchLoop_succ_none (o : Nat → FetchOutcome) (e : Option FetchErr) (a rem : Nat)
    (h : classifyAttempt (o a) = none) :
    fetchLoop o e a (rem + 1) = FetchResult.returned (statusOf (o a)) (a + 1) := by
  show (match classifyAttempt (o a) with
    | none => FetchResult.returned (statusOf (o a)) (a + 1)
    | some e' => fetchLoop o (some e') (a + 1) rem) = _
  rw [h]

theorem fetchLoop_succ_some (o : Nat → FetchOutcome) (e : Option FetchErr) (e' : FetchErr)
    (a rem : Nat) (h : classifyAttempt (o a) = some e') :
    fetchLoop o e a (rem + 1) = fetchLoop o (some e') (a + 1) rem := by
  show (match classifyAttempt (o a) with
    | none => FetchResult.returned (statusOf (o a)) (a + 1)
    | some e'' => fetchLoop o (some e'') (a + 1) rem) = _
  rw [h]

theorem fetchLoop_attempts_le (o : Nat → FetchOutcome) :
    ∀ (rem : Nat) (e : Option FetchErr) (a : Nat),
      attemptsOf (fetchLoop o e a rem) ≤ a + rem := by
  intro rem
  induction rem with
  | zero =>
    intro e a
    simp [fetchLoop_zero, attemptsOf]
  | succ n ih =>
    intro e a
    cases h : classifyAttempt (o a) with
    | none =>
      rw [fetchLoop_succ_none o e a n h]
      simp only [attemptsOf]
      omega
    | some e' =>
      rw [fetchLoop_succ_some o e e' a n h]
      have := ih (some e') (a + 1)
      omega

theorem fetchLoop_all_failures (o : Nat → FetchOutcome) :
    ∀ (n a : Nat) (e : Option FetchErr),
      (∀ k, a ≤ k → k ≤ a + n → (classifyAttempt (o k)).isSome = true) →
      fetchLoop o e a (n + 1) = FetchResult.failed (classifyAttempt (o (a + n))) (a + n + 1) := by
  intro n
  induction n with
  | zero =>
    intro a e h
    obtain ⟨e', he'⟩ := Option.isSome_iff_exists.mp (h a (le_refl a) (by omega))
    rw [fetchLoop_succ_some o e e' a 0 he', fetchLoop_zero]
    simp [he']
  | succ m ih =>
    intro a e h
    obtain ⟨e', he'⟩ := Option.isSome_iff_exists.mp (h a (le_refl a) (by omega))
    have step := ih (a + 1) (some e') (fun k hk1 hk2 => h k (by omega) (by omega))
    rw [fetchLoop_succ_some o e e' a (m + 1) he', step]
    have h1 : a + 1 + m = a + (m + 1) := by omega
    rw [h1]

theorem fetchLoop_first_return (o : Nat → FetchOutcome) :
    ∀ (k rem a : Nat) (e : Option FetchErr), k < rem →
      (∀ j, a ≤ j → j < a + k → (classifyAttempt (o j)).isSome = true) →
      classifyAttempt (o (a + k)) = none →
      fetchLoop o e a rem = FetchResult.returned (statusOf (o (a + k))) (a + k + 1) := by
  intro k
  induction k with
  | zero =>
    intro rem a e hk _ hnone
    obtain ⟨r, rfl⟩ : ∃ r, rem = r + 1 := ⟨rem - 1, by omega⟩
    rw [Nat.add_zero] at hnone
    rw [fetchLoop_succ_none o e a r hnone]
    simp
  | succ m ih =>
    intro rem a e hk hsome hnone
    obtain ⟨r, rfl⟩ : ∃ r, rem = r + 1 := ⟨rem - 1, by omega⟩
    obtain ⟨e', he'⟩ := Option.isSome_iff_exists.mp (hsome a (le_refl a) (by omega))
    have h1 : a + 1 + m = a + (m + 1) := by omega
    have := ih r (a + 1) (some e') (by omega)
      (fun j hj1 hj2 => hsome j (by omega) (by omega)) (by rw [h1]; exact hnone)
    rw [fetchLoop_succ_some o e e' a r he', this, h1]

/-- C4: `fetchWithRetry` performs at most `maxRetries + 1` attempts; when
every attempt fails it raises the error observed on the last attempt
(attempt index `maxRetries`) after exactly `maxRetries + 1` attempts; with
`maxRetries = 3` and outcomes 500, 500, success it returns the success
after exactly 3 attempts; with `maxRetries = 1` and persistent 500s it
raises the ServerError after exactly 2 attempts. -/
theorem C4_fetchWithRetry_budget :
    (∀ (o : Nat → FetchOutcome) (maxRetries : Nat),
      attemptsOf (fetchWithRetry o maxRetries) ≤ maxRetries + 1) ∧
    (∀ (o : Nat → FetchOutcome) (maxRetries : Nat),
      (∀ k, k ≤ maxRetries → (classifyAttempt (o k)).isSome = true) →
      fetchWithRetry o maxRetries =
        FetchResult.failed (classifyAttempt (o maxRetries)) (maxRetries + 1)) ∧
    fetchWithRetry
        (fun i => if i < 2 then FetchOutcome.response 500 none
          else FetchOutcome.response 200 none) 3 =
      FetchResult.returned 200 3 ∧
    fetchWithRetry (fun _ => FetchOutcome.response 500 none) 1 =
      FetchResult.failed (some (FetchErr.serverError 500)) 2 := by
  refine ⟨?_, ?_, by decide, by decide⟩
  · intro o maxRetries
    have := fetchLoop_attempts_le o (maxRetries + 1) none 0
    simpa [fetchWithRetry] using this
  · intro o maxRetries h
    have := fetchLoop_all_failures o maxRetries 0 none
      (fun k _ hk2 => h k (by omega))
    simpa [fetchWithRetry] using this

/-- Witness for C4: every attempt a transport failure, `maxRetries = 0`. -/
theorem C4_fetchWithRetry_budget_witness :
    fetchWithRetry (fun _ => FetchOutcome.transportError) 0 =
      FetchResult.failed (some FetchErr.transportFailure) 1 := by
  have := C4_fetchWithRetry_budget.2.1 (fun _ => FetchOutcome.transportError) 0
    (fun k _ => by simp [classifyAttempt])
  simpa [classifyAttempt] using this

/-- C3 counterexample: with every attempt answering 404 (not a success, not
429, not 5xx) and `maxRetries = 3`, the claim demands 4 attempts with the
last error raised; the code instead returns the 404 response after a single
attempt — non-5xx/non-429 responses are never retried. -/
theorem C3_counterexample :
    fetchWithRetry (fun _ => FetchOutcome.response 404 none) 3 =
      FetchResult.returned 404 1 ∧
    attemptsOf (fetchWithRetry (fun _ => FetchOutcome.response 404 none) 3) ≠ 3 + 1 := by
  refine ⟨by decide, by decide⟩

/-- C3 (amended): transport failures, 429s, and 5xx responses are retried
up to the attempt budget, but any other response — success or not, e.g. a
404 — is returned immediately on the attempt where it occurs, consuming no
further attempts: if the first `k` attempts all fail retryably
(`k ≤ maxRetries`) and attempt `k` yields a response that is neither 429
nor 5xx, `fetchWithRetry` returns that response after exactly `k + 1`
attempts. -/
theorem C3_nonRetryable_response_returned (o : Nat → FetchOutcome) (maxRetries k status : Nat)
    (ra : Option Nat) (hk : k ≤ maxRetries)
    (hfail : ∀ j, j < k → (classifyAttempt (o j)).isSome = true)
    (hko : o k = FetchOutcome.response status ra)
    (hclass : classifyAttempt (FetchOutcome.response status ra) = none) :
    fetchWithRetry o maxRetries = FetchResult.returned status (k + 1) := by
  have := fetchLoop_first_return o k (maxRetries + 1) 0 none (by omega)
    (fun j _ hj => hfail j (by omega)) (by simpa [hko] using hclass)
  simpa [fetchWithRetry, hko, statusOf] using this

/-- Witness for the amended C3: a 503 on attempt 0 is retried, the 404 on
attempt 1 is returned at once (2 attempts, `maxRetries = 2`). -/
theorem C3_nonRetryable_response_returned_witness :
    fetchWithRetry
        (fun i => if i = 0 then FetchOutcome.response 503 none
          else FetchOutcome.response 404 none) 2 =
      FetchResult.returned 404 (1 + 1) :=
  C3_nonRetryable_response_returned
    (fun i => if i = 0 then FetchOutcome.response 503 none
      else FetchOutcome.response 404 none) 2 1 404 none (by decide)
    (fun j hj => by
      have hj0 : j = 0 := by omega
      subst hj0
      decide)
    (by decide) (by decide)

namespace DataProviderService

theorem findMaxLoop_le_high (f : Nat → Bool) :
    ∀ (n low high : Nat), low ≤ high → findMaxLoop f n low high ≤ high := by
  intro n
  induction n with
  | zero => intro low high h; exact h
  | succ m ih =>
    intro low high h
    simp only [findMaxLoop]
    by_cases hb : (low + high) / 2 = low ∨ (low + high) / 2 = high
    · simp [hb, h]
    · simp only [hb, if_false]
      by_cases hf : f ((low + high) / 2) = true
      · simp only [hf, if_true]
        exact ih ((low + high) / 2) high (by omega)
      · simp only [hf, if_false]
        exact le_trans (ih low ((low + high) / 2) (by omega)) (by omega)

theorem findMaxLoop_ge_low (f : Nat → Bool) :
    ∀ (n low high : Nat), low ≤ high → low ≤ findMaxLoop f n low high := by
  intro n
  induction n with
  | zero => intro low high _; exact le_refl low
  | succ m ih =>
    intro low high h
    simp only [findMaxLoop]
    by_cases hb : (low + high) / 2 = low ∨ (low + high) / 2 = high
    · simp [hb]
    · simp only [hb, if_false]
      by_cases hf : f ((low + high) / 2) = true
      · simp only [hf, if_true]
        exact le_trans (by omega : low ≤ (low + high) / 2)
          (ih ((low + high) / 2) high (by omega))
      · simp only [hf, if_false]
        exact ih low ((low + high) / 2) (by omega)

theorem findMaxLoop_mono (p q : Nat → Bool) (himp : ∀ x, p x = true → q x = true) :
    ∀ (n low high : Nat), low ≤ high →
      findMaxLoop p n low high ≤ findMaxLoop q n low high := by
  intro n
  induction n with
  | zero => intro low high _; exact le_refl low
  | succ m ih =>
    intro low high h
    simp only [findMaxLoop]
    by_cases hb : (low + high) / 2 = low ∨ (low + high) / 2 = high
    · simp [hb]
    · simp only [hb, if_false]
      by_cases hp : p ((low + high) / 2) = true
      · have hq := himp _ hp
        simp only [hp, hq, if_true]
        exact ih ((low + high) / 2) high (by omega)
      · simp only [hp, if_false]
        by_cases hq : q ((low + high) / 2) = true
        · simp only [hq, if_true]
          exact le_trans (findMaxLoop_le_high p m low ((low + high) / 2) (by omega))
            (findMaxLoop_ge_low q m ((low + high) / 2) high (by omega))
        · simp only [hq, if_false]
          exact ih low ((low + high) / 2) (by omega)

theorem calculateSlippage_ideal (srcDecimals destDecimals x : Nat) :
    calculateSlippage srcDecimals destDecimals x
      (x * 10 ^ destDecimals / 10 ^ srcDecimals) = 0 := by
  unfold calculateSlippage
  by_cases h : x * 10 ^ destDecimals / 10 ^ srcDecimals = 0
  · simp [h]
  · simp [h, Int.zero_tdiv]

theorem slippageFeasible_ideal (srcDecimals destDecimals slippageBps x : Nat) :
    slippageFeasible (idealQuote srcDecimals destDecimals) srcDecimals destDecimals
      slippageBps x = true := by
  simp [slippageFeasible, idealQuote, calculateSlippage_ideal]

end DataProviderService

/-- C8: for the same quote function and decimals, the binary-search result
is monotone in the slippage budget: with `A < B`,
`findMaxAmountForSlippage(route, A) ≤ findMaxAmountForSlippage(route, B)`. -/
theorem C8_findMax_monotone (quote : Nat → Option Nat) (srcDecimals destDecimals A B : Nat)
    (hAB : A < B) :
    DataProviderService.findMaxAmountForSlippage quote srcDecimals destDecimals A ≤
      DataProviderService.findMaxAmountForSlippage quote srcDecimals destDecimals B := by
  apply DataProviderService.findMaxLoop_mono
  · intro x hx
    unfold DataProviderService.slippageFeasible at hx ⊢
    cases hq : quote x with
    | none =>
      rw [hq] at hx
      simp at hx
    | some out =>
      rw [hq] at hx
      simp only [decide_eq_true_eq] at hx ⊢
      exact le_trans hx (le_of_lt hAB)
  · exact Nat.zero_le _

/-- Witness for C8 at the ideal quote, decimals 18 → 6, budgets 50 < 100. -/
theorem C8_findMax_monotone_witness :
    DataProviderService.findMaxAmountForSlippage (DataProviderService.idealQuote 18 6) 18 6 50 ≤
      DataProviderService.findMaxAmountForSlippage (DataProviderService.idealQuote 18 6) 18 6 100 :=
  C8_findMax_monotone (DataProviderService.idealQuote 18 6) 18 6 50 100 (by decide)

/-- C5 counterexample: with the ideal zero-slippage quote function and a
50 bps budget, the solver does NOT return `UPPER_BOUND` (10^19): 25
iterations of `low = (low + high) / 2` can never reach the untouched
`high` endpoint. -/
theorem C5_counterexample :
    DataProviderService.findMaxAmountForSlippage (DataProviderService.idealQuote 18 6) 18 6 50 ≠
      DataProviderService.UPPER_BOUND := by
  decide

/-- C5 (amended): against the ideal zero-slippage quote, every probe is
feasible, so `low` climbs toward `UPPER_BOUND` for all 25 iterations and
the result, for every slippage budget and every pair of decimals, is
`UPPER_BOUND − 298023223877 = 9999999701976776123` (the upper bound minus
10^19 ceil-halved 25 times), strictly below `UPPER_BOUND`. -/
theorem C5_findMax_idealQuote (srcDecimals destDecimals slippageBps : Nat) :
    DataProviderService.findMaxAmountForSlippage
        (DataProviderService.idealQuote srcDecimals destDecimals)
        srcDecimals destDecimals slippageBps = 9999999701976776123 := by
  unfold DataProviderService.findMaxAmountForSlippage
  have hf : DataProviderService.slippageFeasible
      (DataProviderService.idealQuote srcDecimals destDecimals)
      srcDecimals destDecimals slippageBps = fun _ => true :=
    funext fun x =>
      DataProviderService.slippageFeasible_ideal srcDecimals destDecimals slippageBps x
  rw [hf]
  decide

/-- C6 counterexample: breaker driven OPEN by 5 failures at time 0
(`failureThreshold = 5`, `openTimeout = 100`); a call at `now = 100`, where
`now − lastFailureTime = 100 ≥ openTimeout`, is — contrary to the claim —
still rejected with CircuitOpenError and the state stays OPEN: the code
admits only when `now − lastFailureTime > openTimeout` (strict). -/
theorem C6_counterexample :
    (CircuitBreaker.run (CircuitBreaker.Config.mk 5 2 100 1000000)
        (CircuitBreaker.State.mk CircuitState.CLOSED 0 0 0 0)
        (List.replicate 5 (0, false))).state = CircuitState.OPEN ∧
    (CircuitBreaker.run (CircuitBreaker.Config.mk 5 2 100 1000000)
        (CircuitBreaker.State.mk CircuitState.CLOSED 0 0 0 0)
        (List.replicate 5 (0, false))).lastFailureTime = 0 ∧
    CircuitBreaker.execute (CircuitBreaker.Config.mk 5 2 100 1000000)
        (CircuitBreaker.run (CircuitBreaker.Config.mk 5 2 100 1000000)
          (CircuitBreaker.State.mk CircuitState.CLOSED 0 0 0 0)
          (List.replicate 5 (0, false))) 100 true =
      (CircuitBreaker.run (CircuitBreaker.Config.mk 5 2 100 1000000)
        (CircuitBreaker.State.mk CircuitState.CLOSED 0 0 0 0)
        (List.replicate 5 (0, false)), CircuitBreaker.Outcome.circuitOpen) := by
  refine ⟨by decide, by decide, by decide⟩

/-- C6 (amended): while OPEN, any call with `now − lastFailureTime ≤
openTimeout` (note: including equality) fails with CircuitOpenError
whatever the operation would do — the only state change being the periodic
failure-count hygiene — and the wrapped operation is not invoked; a call
with `now − lastFailureTime > openTimeout` (strictly) is admitted, with the
state already HALF_OPEN when the operation starts. -/
theorem C6_open_gate (cfg : CircuitBreaker.Config) (s : CircuitBreaker.State) (now : Nat)
    (h : s.state = CircuitState.OPEN) :
    (now - s.lastFailureTime ≤ cfg.timeout →
      ∀ b, CircuitBreaker.execute cfg s now b =
        (CircuitBreaker.periodicReset cfg s now, CircuitBreaker.Outcome.circuitOpen)) ∧
    (now - s.lastFailureTime > cfg.timeout →
      (CircuitBreaker.checkState cfg s now).2 = true ∧
      (CircuitBreaker.checkState cfg s now).1.state = CircuitState.HALF_OPEN) := by
  have hstate : (CircuitBreaker.periodicReset cfg s now).state = CircuitState.OPEN := by
    unfold CircuitBreaker.periodicReset
    split <;> simp [h]
  have hlft : (CircuitBreaker.periodicReset cfg s now).lastFailureTime = s.lastFailureTime := by
    unfold CircuitBreaker.periodicReset
    split <;> rfl
  constructor
  · intro hle b
    simp [CircuitBreaker.execute, CircuitBreaker.checkState, hstate, hlft, Nat.not_lt.mpr hle]
  · intro hgt
    simp [CircuitBreaker.checkState, hstate, hlft, hgt]

/-- Witness for C6: an OPEN breaker at half the open timeout rejects. -/
theorem C6_open_gate_witness :
    CircuitBreaker.execute (CircuitBreaker.Config.mk 5 2 100 1000)
        (CircuitBreaker.State.mk CircuitState.OPEN 5 0 0 0) 50 true =
      (CircuitBreaker.periodicReset (CircuitBreaker.Config.mk 5 2 100 1000)
        (CircuitBreaker.State.mk CircuitState.OPEN 5 0 0 0) 50,
        CircuitBreaker.Outcome.circuitOpen) :=
  (C6_open_gate (CircuitBreaker.Config.mk 5 2 100 1000)
    (CircuitBreaker.State.mk CircuitState.OPEN 5 0 0 0) 50 rfl).1 (by decide) true

/-- C2 counterexample: `failureThreshold = 2`, `successThreshold = 2`,
`openTimeout = 10`.  Two failures (t = 0, 1) trip the breaker; the probe at
t = 12 is admitted (HALF_OPEN) and succeeds, which zeroes `failureCount`
and leaves the breaker HALF_OPEN (`successCount = 1 < 2`).  The wrapped
operation then FAILS at t = 13 — yet the breaker stays HALF_OPEN instead of
reopening, because `onFailure` only reopens when the cumulative count
reaches `failureThreshold` (here 1 < 2). -/
theorem C2_counterexample :
    (CircuitBreaker.run (CircuitBreaker.Config.mk 2 2 10 1000000)
        (CircuitBreaker.State.mk CircuitState.CLOSED 0 0 0 0)
        [(0, false), (1, false), (12, true)]).state = CircuitState.HALF_OPEN ∧
    (CircuitBreaker.execute (CircuitBreaker.Config.mk 2 2 10 1000000)
        (CircuitBreaker.run (CircuitBreaker.Config.mk 2 2 10 1000000)
          (CircuitBreaker.State.mk CircuitState.CLOSED 0 0 0 0)
          [(0, false), (1, false), (12, true)]) 13 false).2 =
      CircuitBreaker.Outcome.opFailed ∧
    (CircuitBreaker.execute (CircuitBreaker.Config.mk 2 2 10 1000000)
        (CircuitBreaker.run (CircuitBreaker.Config.mk 2 2 10 1000000)
          (CircuitBreaker.State.mk CircuitState.CLOSED 0 0 0 0)
          [(0, false), (1, false), (12, true)]) 13 false).1.state =
      CircuitState.HALF_OPEN := by
  refine ⟨by decide, by decide, by decide⟩

/-- C2 (amended): a failure of the wrapped operation while HALF_OPEN (with
the periodic reset not firing at `now`) reopens the circuit exactly when the
incremented cumulative failure counter reaches `failureThreshold` —
`failureCount + 1 ≥ failureThreshold` — not on every failure; in particular
the first probe failure after entering HALF_OPEN directly from OPEN (no
intervening success or periodic reset, so `failureCount ≥ failureThreshold`
still) does reopen it. -/
theorem C2_halfOpen_failure (cfg : CircuitBreaker.Config) (s : CircuitBreaker.State)
    (now : Nat) (hs : s.state = CircuitState.HALF_OPEN)
    (hnr : now - s.lastResetTime ≤ cfg.resetTimeout) :
    ((CircuitBreaker.execute cfg s now false).1.state = CircuitState.OPEN ↔
      cfg.failureThreshold ≤ s.failureCount + 1) ∧
    (CircuitBreaker.execute cfg s now false).2 = CircuitBreaker.Outcome.opFailed := by
  have hpr : CircuitBreaker.periodicReset cfg s now = s := by
    unfold CircuitBreaker.periodicReset
    rw [if_neg (by omega)]
  have hcs : CircuitBreaker.checkState cfg s now = (s, true) := by
    simp [CircuitBreaker.checkState, hpr, hs]
  have hex : CircuitBreaker.execute cfg s now false =
      (CircuitBreaker.onFailure cfg s now, CircuitBreaker.Outcome.opFailed) := by
    simp [CircuitBreaker.execute, hcs]
  refine ⟨?_, by rw [hex]⟩
  rw [hex]
  unfold CircuitBreaker.onFailure
  by_cases hth : s.failureCount + 1 ≥ cfg.failureThreshold
  · simp [hth]
  · simp [hth, hs]

/-- Witness for C2: at `failureThreshold = 1` a HALF_OPEN probe failure
reopens the breaker. -/
theorem C2_halfOpen_failure_witness :
    (CircuitBreaker.execute (CircuitBreaker.Config.mk 1 1 10 1000)
        (CircuitBreaker.State.mk CircuitState.HALF_OPEN 0 0 0 0) 5 false).1.state =
      CircuitState.OPEN :=
  (C2_halfOpen_failure (CircuitBreaker.Config.mk 1 1 10 1000)
    (CircuitBreaker.State.mk CircuitState.HALF_OPEN 0 0 0 0) 5 rfl (by decide)).1.mpr
    (by decide)

namespace RateLimiter

theorem run_cons (maxRequests windowMs : Nat) (s : State) (t : Nat) (ts : List Nat) :
    run maxRequests windowMs s (t :: ts) =
      LogEntry.mk t (process maxRequests windowMs s t).1.windowStart
          (process maxRequests windowMs s t).2 ::
        run maxRequests windowMs (process maxRequests windowMs s t).1 ts := rfl

theorem process_reset_grant (maxRequests windowMs : Nat) (s : State) (t : Nat)
    (h1 : windowMs ≤ t - s.windowStart) (h2 : 0 < maxRequests) :
    process maxRequests windowMs s t = (State.mk t 1, true) := by
  unfold process
  simp [ge_iff_le, h1, h2]

theorem process_reset_block (maxRequests windowMs : Nat) (s : State) (t : Nat)
    (h1 : windowMs ≤ t - s.windowStart) (h2 : maxRequests = 0) :
    process maxRequests windowMs s t = (State.mk t 0, false) := by
  unfold process
  simp [ge_iff_le, h1, h2]

theorem process_noreset_grant (maxRequests windowMs : Nat) (s : State) (t : Nat)
    (h1 : ¬ windowMs ≤ t - s.windowStart) (h2 : s.requestCount < maxRequests) :
    process maxRequests windowMs s t =
      (State.mk s.windowStart (s.requestCount + 1), true) := by
  unfold process
  simp [ge_iff_le, h1, h2]

theorem process_noreset_block (maxRequests windowMs : Nat) (s : State) (t : Nat)
    (h1 : ¬ windowMs ≤ t - s.windowStart) (h2 : ¬ s.requestCount < maxRequests) :
    process maxRequests windowMs s t = (s, false) := by
  unfold process
  simp [ge_iff_le, h1, h2]

theorem process_windowStart_mono (maxRequests windowMs : Nat) (hw : 1 ≤ windowMs)
    (s : State) (t : Nat) :
    s.windowStart ≤ (process maxRequests windowMs s t).1.windowStart := by
  by_cases h1 : windowMs ≤ t - s.windowStart
  · by_cases h2 : 0 < maxRequests
    · rw [process_reset_grant maxRequests windowMs s t h1 h2]
      dsimp
      omega
    · rw [process_reset_block maxRequests windowMs s t h1 (by omega)]
      dsimp
      omega
  · by_cases h2 : s.requestCount < maxRequests
    · rw [process_noreset_grant maxRequests windowMs s t h1 h2]
    · rw [process_noreset_block maxRequests windowMs s t h1 h2]

theorem run_wsAfter_ge (maxRequests windowMs : Nat) (hw : 1 ≤ windowMs) :
    ∀ (ts : List Nat) (s : State) (e : LogEntry),
      e ∈ run maxRequests windowMs s ts → s.windowStart ≤ e.wsAfter := by
  intro ts
  induction ts with
  | nil =>
    intro s e he
    simp [run] at he
  | cons t ts ih =>
    intro s e he
    rw [run_cons] at he
    rcases List.mem_cons.mp he with h | h
    · subst h
      exact process_windowStart_mono maxRequests windowMs hw s t
    · exact le_trans (process_windowStart_mono maxRequests windowMs hw s t)
        (ih (process maxRequests windowMs s t).1 e h)

theorem admitsInWindow_cons (a : Nat) (e : LogEntry) (log : List LogEntry) :
    admitsInWindow a (e :: log) =
      admitsInWindow a log + (if e.admitted = true ∧ e.wsAfter = a then 1 else 0) := by
  simp only [admitsInWindow, List.countP_cons, Bool.and_eq_true, decide_eq_true_eq]

theorem admitsInWindow_eq_zero (a : Nat) (log : List LogEntry)
    (h : ∀ e ∈ log, e.wsAfter ≠ a) : admitsInWindow a log = 0 := by
  refine List.countP_eq_zero.mpr ?_
  intro e he
  simp [h e he]

end RateLimiter

theorem RateLimiter.run_window_bound (maxRequests windowMs : Nat) (hw : 1 ≤ windowMs) :
    ∀ (ts : List Nat) (s : RateLimiter.State) (a : Nat),
      s.requestCount ≤ maxRequests →
      RateLimiter.admitsInWindow a (RateLimiter.run maxRequests windowMs s ts) +
        (if a = s.windowStart then s.requestCount else 0) ≤ maxRequests := by
  intro ts
  induction ts with
  | nil =>
    intro s a h
    simp only [RateLimiter.run, RateLimiter.admitsInWindow, List.countP_nil]
    split <;> omega
  | cons t ts ih =>
    intro s a h
    rw [RateLimiter.run_cons, RateLimiter.admitsInWindow_cons]
    by_cases h1 : windowMs ≤ t - s.windowStart
    · have hlt : s.windowStart < t := by omega
      by_cases h2 : 0 < maxRequests
      · rw [RateLimiter.process_reset_grant maxRequests windowMs s t h1 h2]
        dsimp only
        by_cases has : a = s.windowStart
        · have hzero : RateLimiter.admitsInWindow a
              (RateLimiter.run maxRequests windowMs (RateLimiter.State.mk t 1) ts) = 0 := by
            apply RateLimiter.admitsInWindow_eq_zero
            intro e he
            have hge := RateLimiter.run_wsAfter_ge maxRequests windowMs hw ts
              (RateLimiter.State.mk t 1) e he
            dsimp only at hge
            omega
          rw [hzero, if_neg (fun hc => by omega : ¬ (true = true ∧ t = a)), if_pos has]
          omega
        · have iht := ih (RateLimiter.State.mk t 1) a (by show 1 ≤ maxRequests; omega)
          dsimp only at iht
          rw [if_neg has]
          by_cases hat : a = t
          · rw [if_pos (And.intro rfl hat.symm)]
            rw [if_pos hat] at iht
            omega
          · rw [if_neg (fun hc => hat hc.2.symm)]
            rw [if_neg hat] at iht
            omega
      · have hm0 : maxRequests = 0 := by omega
        rw [RateLimiter.process_reset_block maxRequests windowMs s t h1 hm0]
        dsimp only
        have iht := ih (RateLimiter.State.mk t 0) a (Nat.zero_le maxRequests)
        dsimp only at iht
        rw [if_neg (fun hc => Bool.noConfusion hc.1)]
        split_ifs at iht ⊢ <;> omega
    · by_cases h2 : s.requestCount < maxRequests
      · rw [RateLimiter.process_noreset_grant maxRequests windowMs s t h1 h2]
        dsimp only
        have iht := ih (RateLimiter.State.mk s.windowStart (s.requestCount + 1)) a
          (by show s.requestCount + 1 ≤ maxRequests; omega)
        dsimp only at iht
        by_cases has : a = s.windowStart
        · rw [if_pos (And.intro rfl has.symm), if_pos has]
          rw [if_pos has] at iht
          omega
        · rw [if_neg (fun hc => has hc.2.symm), if_neg has]
          rw [if_neg has] at iht
          omega
      · rw [RateLimiter.process_noreset_block maxRequests windowMs s t h1 h2]
        dsimp only
        have iht := ih s a h
        rw [if_neg (fun hc => Bool.noConfusion hc.1)]
        omega

/-- C1 counterexample: `maxRequests = 2`, `windowMs = 100`, limiter
constructed at time 0, `process` calls (queue non-empty) at times
99, 99, 100, 100.  All four are admitted — the first two close out the
first fixed window, the call at 100 resets the window (100 − 0 ≥ 100) and
two more are admitted — so the sliding interval `[99, 199)` of length
`windowMs` contains 4 > 2 admissions, refuting the sliding-window bound. -/
theorem C1_counterexample :
    RateLimiter.admitsInInterval 99 100
        (RateLimiter.run 2 100 (RateLimiter.State.mk 0 0) [99, 99, 100, 100]) = 4 ∧
    ¬ RateLimiter.admitsInInterval 99 100
        (RateLimiter.run 2 100 (RateLimiter.State.mk 0 0) [99, 99, 100, 100]) ≤ 2 := by
  refine ⟨by decide, by decide⟩

/-- C1 (amended): the limiter is a fixed-window limiter.  The window
accounting is as stated (reset `requestCount` to 0 and `windowStart` to
`now` when `now − windowStart ≥ windowMs`; admit only when
`requestCount < maxRequests`; increment per admission), and for every
configuration with `windowMs ≥ 1`, every initial window start, and every
sequence of `process` calls, the number of admissions granted under any
single fixed window (same `windowStart` value `a`) never exceeds
`maxRequests`.  A sliding interval of length `windowMs` can span two fixed
windows and hence see up to `2·maxRequests` admissions. -/
theorem C1_fixed_window_bound (maxRequests windowMs : Nat) (hw : 1 ≤ windowMs)
    (w0 : Nat) (ts : List Nat) (a : Nat) :
    RateLimiter.admitsInWindow a
      (RateLimiter.run maxRequests windowMs (RateLimiter.State.mk w0 0) ts) ≤ maxRequests := by
  have hb := RateLimiter.run_window_bound maxRequests windowMs hw ts
    (RateLimiter.State.mk w0 0) a (Nat.zero_le maxRequests)
  split_ifs at hb <;> omega

/-- Witness for C1 (amended) on the counterexample trace: within the fixed
window that starts at 100, only 2 admissions. -/
theorem C1_fixed_window_bound_witness :
    RateLimiter.admitsInWindow 100
      (RateLimiter.run 2 100 (RateLimiter.State.mk 0 0) [99, 99, 100, 100]) ≤ 2 :=
  C1_fixed_window_bound 2 100 (by decide) 0 [99, 99, 100, 100] 100
